import Mathlib

/-!
Shallow embedding of the USPTO patent extractor (Go) and proofs about the
claims of its specification.  Go strings are byte strings; we model them as
lists of characters, each character standing for one byte of the original
text (all concrete inputs below are ASCII, where the two views coincide).
Filesystem and database effects are made explicit: extraction results,
XML-decoder outcomes and store rows are passed as values.
-/

namespace USPTO

/-- A Go string, modelled as the list of its bytes. -/
abbrev GStr := List Char

/-- Coerce a Lean string literal to the byte-list model. -/
def gstr (s : String) : GStr := s.data

/-- ASCII upper-casing, as strings.ToUpper acts on ASCII letters. -/
def upperC (c : Char) : Char :=
  if 'a' ≤ c && c ≤ 'z' then Char.ofNat (c.toNat - 32) else c

/-- Decimal digit test (regexp class d). -/
def isDigitB (c : Char) : Bool := '0' ≤ c && c ≤ '9'

/-- unicode.IsSpace restricted to the Latin-1 range (space, TAB, LF, VT, FF,
CR, NEL, NBSP); used by strings.TrimSpace. -/
def goIsSpace (c : Char) : Bool :=
  c = ' ' || c = '\t' || c = '\n' || c.toNat = 11 || c.toNat = 12 ||
  c = '\r' || c.toNat = 133 || c.toNat = 160

/-- The Go regexp whitespace class: TAB, LF, FF, CR, space. -/
def reSpace (c : Char) : Bool :=
  c = ' ' || c = '\t' || c = '\n' || c.toNat = 12 || c = '\r'

/-- Drop the trailing characters satisfying p. -/
def dropTrailing (p : Char → Bool) (s : GStr) : GStr :=
  (s.reverse.dropWhile p).reverse

/-- strings.TrimSpace. -/
def goTrimSpace (s : GStr) : GStr :=
  dropTrailing goIsSpace (s.dropWhile goIsSpace)

/-- PostgreSQL btrim with the default character set (a space). -/
def btrim (s : GStr) : GStr :=
  dropTrailing (· = ' ') (s.dropWhile (· = ' '))

/-- Interpret a digit run as a natural number (strconv.Atoi on digits). -/
def natOfDigits (s : GStr) : Nat :=
  s.foldl (fun a c => a * 10 + (c.toNat - 48)) 0

/-- Worker for collapseWS; the flag records whether the previous character
belonged to a whitespace run already replaced by one space. -/
def collapseAux : Bool → GStr → GStr
  | _, [] => []
  | inRun, c :: rest =>
    if reSpace c then
      if inRun then collapseAux true rest else ' ' :: collapseAux true rest
    else c :: collapseAux false rest

/-- ReplaceAllString of the pattern of one-or-more whitespace by a single
space: every maximal run of regexp-whitespace becomes one space. -/
def collapseWS (s : GStr) : GStr := collapseAux false s

/-- Worker for stripTags, fuelled by the input length (each step consumes at
least one character, so the fuel is never exhausted on real inputs). -/
def stripTagsAux : Nat → GStr → GStr
  | 0, s => s
  | _ + 1, [] => []
  | fuel + 1, c :: t =>
    if c = '<' then
      let run := t.takeWhile (fun d => d ≠ '>')
      match t.drop run.length with
      | '>' :: after =>
        if run.isEmpty then c :: stripTagsAux fuel t
        else ' ' :: stripTagsAux fuel after
      | _ => c :: stripTagsAux fuel t
    else c :: stripTagsAux fuel t

/-- ReplaceAllString of the tag pattern (an angle bracket, one or more
non-closing characters, a closing bracket) by a single space. -/
def stripTags (s : GStr) : GStr := stripTagsAux (s.length + 1) s

/-- cleanXMLText of the publication extractor: strip tags to spaces, trim,
collapse whitespace runs.  It does not touch NUL bytes, control characters
or HTML entities. -/
def cleanXMLTextPub (s : GStr) : GStr :=
  collapseWS (goTrimSpace (stripTags s))

/-- strings.ReplaceAll of NUL bytes by nothing. -/
def removeNul (s : GStr) : GStr := s.filter (fun c => c.toNat ≠ 0)

/-- strings.Map dropping control characters below 32 except LF and TAB. -/
def stripCtrl (s : GStr) : GStr :=
  s.filter (fun c => 32 ≤ c.toNat || c = '\n' || c = '\t')

/-- html.UnescapeString restricted to the basic named and numeric entities;
the theorems about the grant sanitizer quantify over the unescape function,
so nothing below depends on the extent of this table. -/
def htmlUnescapeM : GStr → GStr
  | [] => []
  | '&' :: 'a' :: 'm' :: 'p' :: ';' :: rest => '&' :: htmlUnescapeM rest
  | '&' :: 'l' :: 't' :: ';' :: rest => '<' :: htmlUnescapeM rest
  | '&' :: 'g' :: 't' :: ';' :: rest => '>' :: htmlUnescapeM rest
  | '&' :: 'q' :: 'u' :: 'o' :: 't' :: ';' :: rest => '"' :: htmlUnescapeM rest
  | '&' :: '#' :: '3' :: '9' :: ';' :: rest => '\'' :: htmlUnescapeM rest
  | c :: rest => c :: htmlUnescapeM rest

/-- cleanXMLText of the grant extractor, with the HTML-entity decoder as a
parameter: strip tags, remove NUL bytes, decode entities, drop control
characters except LF and TAB, collapse whitespace, trim. -/
def cleanGrantWith (unescape : GStr → GStr) (s : GStr) : GStr :=
  goTrimSpace (collapseWS (stripCtrl (unescape (removeNul (stripTags s)))))

/-- cleanXMLText of the grant extractor. -/
def cleanXMLTextGrant (s : GStr) : GStr := cleanGrantWith htmlUnescapeM s

/-- A calendar date as produced by parseDate (time.Time restricted to what
the extractor reads back out of it). -/
structure GoDate where
  y : Nat
  m : Nat
  d : Nat
deriving DecidableEq, Repr

/-- Shared shape of the Inventor and Assignee records.  The Go Address map
is modelled by two optional fields, present exactly when the corresponding
key is set. -/
structure MParty where
  name : GStr
  ptype : GStr
  city : Option GStr
  country : Option GStr
deriving DecidableEq, Repr

/-- The Patent record produced by the publication parser.  Inventors and
assignees are kept as the marshalled lists (none models the nil
json.RawMessage). -/
structure MPatent where
  pubNumber : GStr
  title : GStr
  abstractText : GStr
  descriptionText : GStr
  claims : List GStr
  filingDate : Option GoDate
  pubDate : Option GoDate
  year : Int
  applicationNumber : GStr
  inventors : Option (List MParty)
  assignees : Option (List MParty)
  rawXMLPath : GStr
deriving DecidableEq, Repr

/-- The marker separating the claims block from the description body. -/
def markerStr : GStr := gstr "\n\nDESCRIPTION:"

/-- strings.Index, returning the position of the first occurrence. -/
def indexOfSub (needle : GStr) : GStr → Option Nat
  | [] => if needle.isEmpty then some 0 else none
  | c :: t =>
    if needle.isPrefixOf (c :: t) then some 0
    else (indexOfSub needle t).map (· + 1)

/-- The claims-text accumulation loop of insertPatents: first ten claims,
trimmed, empty ones skipped, joined by blank lines. -/
def joinClaimsText (claims : List GStr) : GStr :=
  (claims.take 10).foldl
    (fun sb c =>
      let ct := goTrimSpace c
      if ct.isEmpty then sb
      else if sb.isEmpty then ct else sb ++ gstr "\n\n" ++ ct) []

/-- Derivation of (claims_text, description_body) from a Patent record in
insertPatents.  Note the strict comparison of the marker index with zero:
when the marker is absent (Index yields -1) or sits at position 0, the body
keeps the whole description text. -/
def deriveClaimsBody (p : MPatent) : GStr × GStr :=
  if !p.claims.isEmpty then
    let claimsText := joinClaimsText p.claims
    let body :=
      match indexOfSub markerStr p.descriptionText with
      | some idx =>
        if 0 < idx then p.descriptionText.drop (idx + markerStr.length)
        else p.descriptionText
      | none => p.descriptionText
    (claimsText, body)
  else if (gstr "CLAIMS:").isPrefixOf p.descriptionText then
    match indexOfSub markerStr p.descriptionText with
    | some idx =>
      if 0 < idx then
        (goTrimSpace ((p.descriptionText.drop 7).take (idx - 7)),
         p.descriptionText.drop (idx + markerStr.length))
      else (goTrimSpace (p.descriptionText.drop 7), p.descriptionText)
    | none => (goTrimSpace (p.descriptionText.drop 7), p.descriptionText)
  else ([], p.descriptionText)

/-- The VALUES tuple bound by the UPSERT statement for one record: the text
columns are always non-null Go strings, the dates and the two JSON columns
may be null, the year is always bound (possibly zero). -/
structure InsertVals where
  title : GStr
  abstractText : GStr
  descriptionText : GStr
  claimsText : GStr
  descriptionBody : GStr
  applicationNumber : GStr
  rawXmlPath : GStr
  filingDate : Option GoDate
  pubDate : Option GoDate
  inventors : Option (List MParty)
  assignees : Option (List MParty)
  year : Int
deriving DecidableEq, Repr

/-- The VALUES tuple built from a parsed Patent record in insertPatents. -/
def toInsertVals (p : MPatent) : InsertVals :=
  { title := p.title
    abstractText := p.abstractText
    descriptionText := p.descriptionText
    claimsText := (deriveClaimsBody p).1
    descriptionBody := (deriveClaimsBody p).2
    applicationNumber := p.applicationNumber
    rawXmlPath := p.rawXMLPath
    filingDate := p.filingDate
    pubDate := p.pubDate
    inventors := p.inventors
    assignees := p.assignees
    year := p.year }

/-- One stored row of patent_data_unified (every non-key column is
nullable). -/
structure StoredRow where
  title : Option GStr
  abstractText : Option GStr
  descriptionText : Option GStr
  claimsText : Option GStr
  descriptionBody : Option GStr
  applicationNumber : Option GStr
  rawXmlPath : Option GStr
  filingDate : Option GoDate
  pubDate : Option GoDate
  inventors : Option (List MParty)
  assignees : Option (List MParty)
  year : Option Int
deriving DecidableEq, Repr

/-- The stored-is-null-or-blank test of the CASE arms for text columns. -/
def isNullOrBlank : Option GStr → Bool
  | none => true
  | some s => (btrim s).isEmpty

/-- CASE WHEN stored IS NULL OR btrim(stored) = blank THEN EXCLUDED ELSE
stored END. -/
def fillText (stored : Option GStr) (excluded : GStr) : Option GStr :=
  if isNullOrBlank stored then some excluded else stored

/-- CASE WHEN stored IS NULL THEN EXCLUDED ELSE stored END (also COALESCE
for the raw path column). -/
def fillNull {α : Type} (stored : Option α) (excluded : Option α) : Option α :=
  match stored with
  | none => excluded
  | some v => some v

/-- The ON CONFLICT update of the UPSERT in insertPatents.  In default mode
every text column fills only when the stored value is null or blank; with
ForceOverwrite the three description columns are replaced unconditionally
and everything else keeps the fill-only arms. -/
def mergeRow (force : Bool) (stored : StoredRow) (n : InsertVals) : StoredRow :=
  { title := fillText stored.title n.title
    abstractText := fillText stored.abstractText n.abstractText
    descriptionText :=
      if force then some n.descriptionText
      else fillText stored.descriptionText n.descriptionText
    claimsText :=
      if force then some n.claimsText
      else fillText stored.claimsText n.claimsText
    descriptionBody :=
      if force then some n.descriptionBody
      else fillText stored.descriptionBody n.descriptionBody
    applicationNumber := fillText stored.applicationNumber n.applicationNumber
    rawXmlPath := fillNull stored.rawXmlPath (some n.rawXmlPath)
    filingDate := fillNull stored.filingDate n.filingDate
    pubDate := fillNull stored.pubDate n.pubDate
    inventors := fillNull stored.inventors n.inventors
    assignees := fillNull stored.assignees n.assignees
    year := fillNull stored.year (some n.year) }

/-- The row created when the INSERT does not conflict. -/
def rowOfInsert (n : InsertVals) : StoredRow :=
  { title := some n.title
    abstractText := some n.abstractText
    descriptionText := some n.descriptionText
    claimsText := some n.claimsText
    descriptionBody := some n.descriptionBody
    applicationNumber := some n.applicationNumber
    rawXmlPath := some n.rawXmlPath
    filingDate := n.filingDate
    pubDate := n.pubDate
    inventors := n.inventors
    assignees := n.assignees
    year := some n.year }

/-- One UPSERT against the (optional) existing row with the same key. -/
def upsertRow (force : Bool) (existing : Option StoredRow) (n : InsertVals) :
    StoredRow :=
  match existing with
  | none => rowOfInsert n
  | some s => mergeRow force s n

/-- Row states reachable by upserting the record n in fill-only mode. -/
def reachableRow (n : InsertVals) (s : StoredRow) : Prop :=
  s = rowOfInsert n ∨ ∃ s0, s = mergeRow false s0 n

/-- Spec-side presence test for a text column: non-null and non-blank. -/
def presentText : Option GStr → Bool
  | none => false
  | some v => !(btrim v).isEmpty

/-- Case-insensitive literal prefix test (first argument is the literal). -/
def ciStarts : GStr → GStr → Bool
  | [], _ => true
  | _ :: _, [] => false
  | a :: as, b :: bs => (upperC a = upperC b) && ciStarts as bs

/-- Suffix starting at the first case-insensitive occurrence of a literal. -/
def findCI (lit : GStr) : GStr → Option GStr
  | [] => if lit.isEmpty then some [] else none
  | c :: t => if ciStarts lit (c :: t) then some (c :: t) else findCI lit t

/-- Split at the first case-insensitive occurrence of a literal: the part
before it and the part after it. -/
def splitAtCI (lit : GStr) : GStr → Option (GStr × GStr)
  | [] => if lit.isEmpty then some ([], []) else none
  | c :: t =>
    if ciStarts lit (c :: t) then some ([], (c :: t).drop lit.length)
    else (splitAtCI lit t).map (fun pr => (c :: pr.1, pr.2))

/-- Match of an opening-tag literal followed by an attribute run and the
closing bracket (the literal, any non-bracket characters, a bracket), at
the first occurrence of the literal; yields the suffix after the bracket.
When the first occurrence has no later bracket, no later occurrence can
have one either, so the whole pattern fails. -/
def afterOpenTag (lit : GStr) (s : GStr) : Option GStr :=
  match findCI lit s with
  | none => none
  | some suf =>
    let rest := suf.drop lit.length
    let run := rest.takeWhile (fun c => c ≠ '>')
    match rest.drop run.length with
    | '>' :: after => some after
    | _ => none

/-- First doc-number element whose content is one or more digits followed
directly by the closing tag (the capture group of the new-format
application-number pattern); case-insensitive. -/
def findDocNumDigits : GStr → Option GStr
  | [] => none
  | c :: t =>
    if ciStarts (gstr "<doc-number>") (c :: t) then
      let rest := (c :: t).drop 12
      let run := rest.takeWhile isDigitB
      if !run.isEmpty && ciStarts (gstr "</doc-number>") (rest.drop run.length) then
        some run
      else findDocNumDigits t
    else findDocNumDigits t

/-- Old-format arm of extractAppNumber in the main extractor: the
domestic-filing-data literal, then (anywhere later) the application-number
literal, then a digits-only doc-number.  The lazy gaps make the nested
first-occurrence search equivalent to the Go regexp. -/
def extractAppNumberOld (data : GStr) : GStr :=
  match findCI (gstr "<domestic-filing-data>") data with
  | some suf =>
    match findCI (gstr "<application-number>") (suf.drop (gstr "<domestic-filing-data>").length) with
    | some suf2 =>
      match findDocNumDigits (suf2.drop (gstr "<application-number>").length) with
      | some run => goTrimSpace run
      | none => []
    | none => []
  | none => []

/-- extractAppNumber of the main extractor (new format first): an
application-reference opening tag followed anywhere later by a digits-only
doc-number; the pattern does not require the doc-number to sit inside the
element. -/
def extractAppNumber (data : GStr) : GStr :=
  match afterOpenTag (gstr "<application-reference") data with
  | some rest =>
    match findDocNumDigits rest with
    | some run => goTrimSpace run
    | none => extractAppNumberOld data
  | none => extractAppNumberOld data

/-- Content of the first element block of the given tag: opening tag with
attributes, lazy content, exact closing tag (case-insensitive). -/
def blockContentCI (tag : GStr) (s : GStr) : Option GStr :=
  match afterOpenTag ('<' :: tag) s with
  | none => none
  | some rest => (splitAtCI (gstr "</" ++ tag ++ gstr ">") rest).map (·.1)

/-- First doc-number element with attributes allowed and non-empty
tag-free content (the backfill variant's inner pattern). -/
def findDocNumContent : GStr → Option GStr
  | [] => none
  | c :: t =>
    if ciStarts (gstr "<doc-number") (c :: t) then
      let r1 := (c :: t).drop 11
      let attrs := r1.takeWhile (fun d => d ≠ '>')
      match r1.drop attrs.length with
      | '>' :: r2 =>
        let content := r2.takeWhile (fun d => d ≠ '<')
        if !content.isEmpty && ciStarts (gstr "</doc-number>") (r2.drop content.length) then
          some content
        else findDocNumContent t
      | _ => findDocNumContent t
    else findDocNumContent t

/-- Keep only the decimal digits (the strings.Map filter of the backfill
variant). -/
def digitsOnly (s : GStr) : GStr := s.filter isDigitB

/-- Old-format arm of the backfill extractAppNumber: doc-number searched
inside the application-number block inside the domestic-filing-data
block. -/
def bfExtractOld (data : GStr) : GStr :=
  match blockContentCI (gstr "domestic-filing-data") data with
  | some dblock =>
    match blockContentCI (gstr "application-number") dblock with
    | some ablock =>
      match findDocNumContent ablock with
      | some content => digitsOnly content
      | none => []
    | none => []
  | none => []

/-- extractAppNumber of the backfill tool: unlike the main extractor it
first captures the application-reference element block and searches the
doc-number inside it. -/
def extractAppNumberBF (data : GStr) : GStr :=
  match blockContentCI (gstr "application-reference") data with
  | some block =>
    match findDocNumContent block with
    | some content => digitsOnly content
    | none => bfExtractOld data
  | none => bfExtractOld data

/-- Modelled from the spec: application-number extraction as the
specification words it, with the doc-number required to lie inside the
application-reference element (first arm) or inside the application-number
element of the domestic-filing-data element (second arm), digits only,
else empty. -/
def extractAppNumberSpec (data : GStr) : GStr :=
  match blockContentCI (gstr "application-reference") data with
  | some block =>
    match findDocNumContent block with
    | some content => digitsOnly content
    | none => bfExtractOld data
  | none => bfExtractOld data

/-- First match of the pattern US followed by digits, returning the digit
capture (case-sensitive). -/
def findUSNum : GStr → Option GStr
  | [] => none
  | c :: t =>
    if c = 'U' then
      match t with
      | 'S' :: r =>
        let run := r.takeWhile isDigitB
        if run.isEmpty then findUSNum t else some run
      | _ => findUSNum t
    else findUSNum t

/-- First plain doc-number element (case-sensitive, no attributes, content
one or more non-bracket characters). -/
def findPlainDocNum : GStr → Option GStr
  | [] => none
  | c :: t =>
    if (gstr "<doc-number>").isPrefixOf (c :: t) then
      let r := (c :: t).drop 12
      let content := r.takeWhile (fun d => d ≠ '<')
      if !content.isEmpty && (gstr "</doc-number>").isPrefixOf (r.drop content.length) then
        some content
      else findPlainDocNum t
    else findPlainDocNum t

/-- Literal prefix test, case-sensitive or case-insensitive. -/
def litStarts (ci : Bool) (lit s : GStr) : Bool :=
  if ci then ciStarts lit s else lit.isPrefixOf s

/-- First match of an opening tag with attributes, non-empty tag-free
content and exact closing tag (shape of the invention-title, given-name,
orgname and related single-capture patterns). -/
def findSimpleTag (ci : Bool) (tag : GStr) : GStr → Option GStr
  | [] => none
  | c :: t =>
    if litStarts ci ('<' :: tag) (c :: t) then
      let r := (c :: t).drop (tag.length + 1)
      let attrs := r.takeWhile (fun d => d ≠ '>')
      match r.drop attrs.length with
      | '>' :: r2 =>
        let content := r2.takeWhile (fun d => d ≠ '<')
        if !content.isEmpty &&
            litStarts ci (gstr "</" ++ tag ++ gstr ">") (r2.drop content.length) then
          some content
        else findSimpleTag ci tag t
      | _ => findSimpleTag ci tag t
    else findSimpleTag ci tag t

/-- Characters allowed in the optional namespace-prefix group of the
description and paragraph patterns. -/
def isNsChar (c : Char) : Bool :=
  isDigitB c || ('a' ≤ c && c ≤ 'z') || ('A' ≤ c && c ≤ 'Z') ||
  c = '_' || c = ':' || c = '-'

/-- Candidate lengths for the greedy optional namespace prefix (a run of
namespace characters ending in a colon), longest first, then the empty
prefix. -/
def nsCandidates (run : GStr) : List Nat :=
  ((List.range (run.length + 1)).reverse.filter
    (fun k => k ≠ 0 && (run.take k).getLast? = some ':')) ++ [0]

/-- Attempt the tag literal, attribute run and closing bracket after
skipping k namespace characters. -/
def matchTagAfterNs (tag : GStr) (t : GStr) (k : Nat) : Option (GStr × GStr) :=
  let t2 := t.drop k
  if ciStarts tag t2 then
    let r := t2.drop tag.length
    let attrs := r.takeWhile (fun d => d ≠ '>')
    match r.drop attrs.length with
    | '>' :: after => some (attrs, after)
    | _ => none
  else none

/-- Match of a namespace-aware opening tag at the head of the input,
yielding the attribute text and the suffix after the bracket. -/
def matchNsOpen (ns : Bool) (tag : GStr) : GStr → Option (GStr × GStr)
  | '<' :: t =>
    if ns then (nsCandidates (t.takeWhile isNsChar)).findSome? (matchTagAfterNs tag t)
    else matchTagAfterNs tag t 0
  | _ => none

/-- Match of a namespace-aware closing tag at the head of the input,
yielding the suffix after it. -/
def matchNsClose (ns : Bool) (tag : GStr) : GStr → Option GStr
  | '<' :: '/' :: t =>
    let tryK : Nat → Option GStr := fun k =>
      let t2 := t.drop k
      if ciStarts tag t2 then
        match t2.drop tag.length with
        | '>' :: after => some after
        | _ => none
      else none
    if ns then (nsCandidates (t.takeWhile isNsChar)).findSome? tryK
    else tryK 0
  | _ => none

/-- Lazy scan to the earliest closing tag: the content before it and the
suffix after it. -/
def scanClose (ns : Bool) (tag : GStr) : GStr → Option (GStr × GStr)
  | [] => none
  | c :: t =>
    match matchNsClose ns tag (c :: t) with
    | some after => some ([], after)
    | none =>
      match scanClose ns tag t with
      | some (content, after) => some (c :: content, after)
      | none => none

/-- First full element block of the given tag: attributes, lazy content,
and the suffix after the closing tag. -/
def findTagBlock (ns : Bool) (tag : GStr) : GStr → Option (GStr × GStr × GStr)
  | [] => none
  | c :: t =>
    match (matchNsOpen ns tag (c :: t)).bind
        (fun pr => (scanClose ns tag pr.2).map (fun qr => (pr.1, qr.1, qr.2))) with
    | some r => some r
    | none => findTagBlock ns tag t

/-- FindAllSubmatch: repeated non-overlapping first matches; fuelled by the
input length, which bounds the number of matches. -/
def findAllTagBlocksGo (ns : Bool) (tag : GStr) : Nat → GStr → List (GStr × GStr)
  | 0, _ => []
  | fuel + 1, s =>
    match findTagBlock ns tag s with
    | none => []
    | some (attrs, content, after) => (attrs, content) :: findAllTagBlocksGo ns tag fuel after

/-- All element blocks of the given tag, in order, as (attributes, content)
pairs. -/
def findAllTagBlocks (ns : Bool) (tag : GStr) (s : GStr) : List (GStr × GStr) :=
  findAllTagBlocksGo ns tag (s.length + 1) s

/-- First element block together with the text before it and after it
(support for ReplaceAll with an empty replacement). -/
def findTagBlockSplit (ns : Bool) (tag : GStr) : GStr → Option (GStr × GStr)
  | [] => none
  | c :: t =>
    match (matchNsOpen ns tag (c :: t)).bind (fun pr => scanClose ns tag pr.2) with
    | some qr => some ([], qr.2)
    | none => (findTagBlockSplit ns tag t).map (fun pr => (c :: pr.1, pr.2))

/-- Worker removing every element block of the given tag. -/
def stripTagBlocksGo (ns : Bool) (tag : GStr) : Nat → GStr → GStr
  | 0, s => s
  | fuel + 1, s =>
    match findTagBlockSplit ns tag s with
    | none => s
    | some (before, after) => before ++ stripTagBlocksGo ns tag fuel after

/-- ReplaceAll of the numbering-element pattern by nothing. -/
def stripTagBlocks (ns : Bool) (tag : GStr) (s : GStr) : GStr :=
  stripTagBlocksGo ns tag (s.length + 1) s

/-- Digit group of a quoted attribute value for the id pattern: the value
must end in at least three digits, and the capture is the last five (or
fewer) of them. -/
def idDigits (content : GStr) : Option GStr :=
  let run := (content.reverse.takeWhile isDigitB).reverse
  if 3 ≤ run.length then some (run.drop (run.length - 5)) else none

/-- The id-attribute pattern of the paragraph numbering (case-insensitive
id, optional whitespace around the equals sign, a quoted value ending in
three to five captured digits). -/
def scanIdAttr : GStr → Option Nat
  | [] => none
  | c :: t =>
    if ciStarts (gstr "id") (c :: t) then
      let r := ((c :: t).drop 2).dropWhile reSpace
      match r with
      | '=' :: r2 =>
        (match r2.dropWhile reSpace with
        | '"' :: r3 =>
          let content := r3.takeWhile (fun d => d ≠ '"')
          if (r3.drop content.length).head? = some '"' then
            match idDigits content with
            | some ds => some (natOfDigits ds)
            | none => scanIdAttr t
          else scanIdAttr t
        | _ => scanIdAttr t)
      | _ => scanIdAttr t
    else scanIdAttr t

/-- Word characters for the boundary assertion of the num pattern. -/
def isWordChar (c : Char) : Bool :=
  isDigitB c || ('a' ≤ c && c ≤ 'z') || ('A' ≤ c && c ≤ 'Z') || c = '_'

/-- Worker for the num-attribute pattern, carrying the previous character
for the word-boundary test; the quoted value must be exactly three to five
digits. -/
def scanNumAttrGo : Option Char → GStr → Option Nat
  | _, [] => none
  | prev, c :: t =>
    if (prev.elim true (fun pc => !isWordChar pc)) && ciStarts (gstr "num") (c :: t) then
      let r := ((c :: t).drop 3).dropWhile reSpace
      match r with
      | '=' :: r2 =>
        (match r2.dropWhile reSpace with
        | '"' :: r3 =>
          let ds := r3.takeWhile isDigitB
          if 3 ≤ ds.length && ds.length ≤ 5 && (r3.drop ds.length).head? = some '"' then
            some (natOfDigits ds)
          else scanNumAttrGo (some c) t
        | _ => scanNumAttrGo (some c) t)
      | _ => scanNumAttrGo (some c) t
    else scanNumAttrGo (some c) t

/-- First num attribute with a three-to-five digit value. -/
def scanNumAttr (s : GStr) : Option Nat := scanNumAttrGo none s

/-- Decimal digits of a natural number. -/
def natDigitsG (n : Nat) : GStr := (toString n).data

/-- The bracketed paragraph number format padded to four digits. -/
def pad4 (n : Nat) : GStr :=
  let ds := natDigitsG n
  List.replicate (4 - ds.length) '0' ++ ds

/-- Paragraph number: the id attribute digits, else the num attribute
digits, else (also when the attribute digits read as zero) the running
counter. -/
def paraNumber (attrs : GStr) (seq : Nat) : Nat :=
  match scanIdAttr attrs with
  | some v => if v = 0 then seq else v
  | none =>
    match scanNumAttr attrs with
    | some v => if v = 0 then seq else v
    | none => seq

/-- Removal of explicit numbering child elements before cleaning. -/
def stripNumNodes (content : GStr) : GStr :=
  stripTagBlocks true (gstr "num") (stripTagBlocks true (gstr "number") content)

/-- The formatting loop over paragraph segments: number, strip numbering
nodes, clean, skip empties, and prefix the bracketed number.  The running
counter advances on every segment. -/
def formatParasGo : Nat → List (GStr × GStr) → List GStr
  | _, [] => []
  | seq, (attrs, content) :: rest =>
    let n := paraNumber attrs seq
    let txt := cleanXMLTextPub (stripNumNodes content)
    let out := formatParasGo (seq + 1) rest
    if txt.isEmpty then out
    else (('[' :: pad4 n) ++ (']' :: ' ' :: txt)) :: out

/-- Upper-case letter or digit (the token after a sentence boundary). -/
def isUpperOrDigit (c : Char) : Bool :=
  ('A' ≤ c && c ≤ 'Z') || isDigitB c

/-- ReplaceAll of the sentence-boundary pattern (a period, whitespace, an
upper-case letter or digit) by a period, two newlines and the token. -/
def sentSplitGo : Nat → GStr → GStr
  | 0, s => s
  | _ + 1, [] => []
  | fuel + 1, c :: t =>
    if c = '.' then
      let ws := t.takeWhile reSpace
      if ws.isEmpty then c :: sentSplitGo fuel t
      else
        match t.drop ws.length with
        | d :: rest =>
          if isUpperOrDigit d then '.' :: '\n' :: '\n' :: d :: sentSplitGo fuel rest
          else c :: sentSplitGo fuel t
        | [] => c :: sentSplitGo fuel t
    else c :: sentSplitGo fuel t

/-- Worker splitting on maximal runs of two or more newlines. -/
def splitBlankGo : Nat → GStr → GStr → List GStr
  | 0, acc, s => [acc.reverse ++ s]
  | _ + 1, acc, [] => [acc.reverse]
  | fuel + 1, acc, c :: t =>
    if c = '\n' && t.head? = some '\n' then
      acc.reverse :: splitBlankGo fuel [] (t.dropWhile (· = '\n'))
    else splitBlankGo fuel (c :: acc) t

/-- Split on blank lines (runs of two or more newlines). -/
def splitBlank (s : GStr) : List GStr := splitBlankGo (s.length + 1) [] s

/-- Worker for strings.ReplaceAll. -/
def replaceAllGo (needle repl : GStr) : Nat → GStr → GStr
  | 0, s => s
  | _ + 1, [] => []
  | fuel + 1, c :: t =>
    if !needle.isEmpty && needle.isPrefixOf (c :: t) then
      repl ++ replaceAllGo needle repl fuel ((c :: t).drop needle.length)
    else c :: replaceAllGo needle repl fuel t

/-- strings.ReplaceAll. -/
def replaceAllSub (needle repl s : GStr) : GStr :=
  replaceAllGo needle repl (s.length + 1) s

/-- Heuristic paragraph segmentation of a description block with no tagged
paragraphs: closing paragraph-like tags become blank lines (immediately
collapsed again), remaining tags are stripped, whitespace collapsed,
sentence boundaries opened into blank lines, and the chunks between blank
lines become attribute-less segments. -/
def heuristicParas (block : GStr) : List (GStr × GStr) :=
  let txt := [gstr "</p>", gstr "</paragraph>", gstr "<br>", gstr "<br/>",
      gstr "</br>", gstr "</para>"].foldl
    (fun acc tg => replaceAllSub tg (gstr "\n\n") acc) block
  let txt := stripTags txt
  let txt := collapseWS txt
  let txt := sentSplitGo (txt.length + 1) txt
  ((splitBlank txt).map goTrimSpace).filterMap
    (fun c2 => if c2.isEmpty then none else some (([] : GStr), c2))

/-- synthesizeDescription: locate the description block (subdoc-description
first), segment it into paragraphs by the three tagged patterns or the
heuristic, and emit bracket-numbered paragraphs joined by blank lines; a
block with no segmentable paragraphs becomes a single numbered
paragraph. -/
def synthesizeDescription (data : GStr) : GStr :=
  let block :=
    match findTagBlock true (gstr "subdoc-description") data with
    | some r => r.2.1
    | none =>
      match findTagBlock true (gstr "description") data with
      | some r => r.2.1
      | none => []
  if block.isEmpty then []
  else
    let l1 := findAllTagBlocks true (gstr "paragraph") block
    let l2 := if l1.isEmpty then findAllTagBlocks true (gstr "p") block else l1
    let l3 := if l2.isEmpty then findAllTagBlocks true (gstr "para") block else l2
    let paras := if l3.isEmpty then heuristicParas block else l3
    if paras.isEmpty then gstr "[0001] " ++ cleanXMLTextPub block
    else List.intercalate (gstr "\n\n") (formatParasGo 1 paras)

/-- parseDate: the four accepted layouts, with basic range validation in
place of the calendar checks of time.Parse (no claim depends on the finer
validation). -/
def parseDateM (s0 : GStr) : Option GoDate :=
  let s := goTrimSpace s0
  if s.length = 8 && s.all isDigitB then
    let y := natOfDigits (s.take 4)
    let m := natOfDigits ((s.drop 4).take 2)
    let d := natOfDigits (s.drop 6)
    if 1 ≤ m && m ≤ 12 && 1 ≤ d && d ≤ 31 then some ⟨y, m, d⟩ else none
  else if s.length = 10 && (s.take 4).all isDigitB && s.get? 4 = some '-' &&
      ((s.drop 5).take 2).all isDigitB && s.get? 7 = some '-' &&
      (s.drop 8).all isDigitB then
    let y := natOfDigits (s.take 4)
    let m := natOfDigits ((s.drop 5).take 2)
    let d := natOfDigits (s.drop 8)
    if 1 ≤ m && m ≤ 12 && 1 ≤ d && d ≤ 31 then some ⟨y, m, d⟩ else none
  else if s.length = 10 && (s.take 2).all isDigitB && s.get? 2 = some '/' &&
      ((s.drop 3).take 2).all isDigitB && s.get? 5 = some '/' &&
      (s.drop 6).all isDigitB then
    let m := natOfDigits (s.take 2)
    let d := natOfDigits ((s.drop 3).take 2)
    let y := natOfDigits (s.drop 6)
    if 1 ≤ m && m ≤ 12 && 1 ≤ d && d ≤ 31 then some ⟨y, m, d⟩ else none
  else if s.length = 4 && s.all isDigitB then
    some ⟨natOfDigits s, 1, 1⟩
  else none

/-- First twenty-hundreds year pattern (the literal two-zero followed by
two digits) in a string. -/
def findYear20 : GStr → Option Nat
  | [] => none
  | c :: t =>
    if c = '2' then
      match t with
      | '0' :: a :: b :: _ =>
        if isDigitB a && isDigitB b then
          some (2000 + 10 * (a.toNat - 48) + (b.toNat - 48))
        else findYear20 t
      | _ => findYear20 t
    else findYear20 t

/-- First document-date element whose content is exactly eight digits. -/
def findDocumentDate : GStr → Option GStr
  | [] => none
  | c :: t =>
    if (gstr "<document-date>").isPrefixOf (c :: t) then
      let r := (c :: t).drop 15
      let ds := r.take 8
      if ds.length = 8 && ds.all isDigitB &&
          (gstr "</document-date>").isPrefixOf (r.drop 8) then some ds
      else findDocumentDate t
    else findDocumentDate t

/-- One inventor element as decoded by encoding-xml into the structured
document (names and address leaves). -/
structure XInventorRec where
  given : GStr
  family : GStr
  city : GStr
  country : GStr
deriving DecidableEq, Repr

/-- One assignee element as decoded into the structured document. -/
structure XAssigneeRec where
  orgName : GStr
  given : GStr
  family : GStr
  city : GStr
  country : GStr
deriving DecidableEq, Repr

/-- The structured document bound by xml.Unmarshal in parseXML: the title,
the raw inner text of abstract, claims and description, the two document
references and the party lists.  A value of this type is the outcome of
the standard-library decoder on the raw bytes; decoding itself is not
repository code and is supplied as an input. -/
structure XMLDoc where
  title : GStr
  abstractInner : GStr
  claimInners : List GStr
  descriptionInner : GStr
  pubDocNumber : GStr
  pubDate : GStr
  appDate : GStr
  inventors : List XInventorRec
  assignees : List XAssigneeRec
deriving DecidableEq, Repr

/-- Byte truncation at a ceiling, applied only when the text overflows. -/
def capBytes (n : Nat) (s : GStr) : GStr :=
  if n < s.length then s.take n else s

/-- The claims block of the combined description: header plus the first
ten claims, each followed by a blank line. -/
def claimsBlock (claims : List GStr) : GStr :=
  gstr "CLAIMS:\n" ++ ((claims.take 10).map (fun c => c ++ gstr "\n\n")).flatten

/-- Assembly of the combined description from the claims block and the
synthesized description text, with the marker between them. -/
def combineDescription (claims : List GStr) (descText : GStr) : GStr :=
  let description := if claims.isEmpty then [] else claimsBlock claims
  if descText.isEmpty then description
  else (if description.isEmpty then [] else description ++ gstr "DESCRIPTION:\n") ++ descText

/-- Inventor construction of the structured parser: named only when both
given and family names are present; the address carries both keys whenever
either leaf is non-empty. -/
def mkStructInventor (iv : XInventorRec) : Option MParty :=
  let name :=
    if !iv.given.isEmpty && !iv.family.isEmpty then iv.given ++ [' '] ++ iv.family
    else []
  if name.isEmpty then none
  else
    some { name := name
           ptype := gstr "individual"
           city := if !iv.city.isEmpty || !iv.country.isEmpty then some iv.city else none
           country := if !iv.city.isEmpty || !iv.country.isEmpty then some iv.country else none }

/-- Assignee construction of the structured parser: organization name
first, else both personal names, else skipped. -/
def mkStructAssignee (a : XAssigneeRec) : Option MParty :=
  let np :=
    if !a.orgName.isEmpty then (a.orgName, gstr "organization")
    else if !a.given.isEmpty && !a.family.isEmpty then
      (a.given ++ [' '] ++ a.family, gstr "individual")
    else (([] : GStr), ([] : GStr))
  if np.1.isEmpty then none
  else
    some { name := np.1
           ptype := np.2
           city := if !a.city.isEmpty || !a.country.isEmpty then some a.city else none
           country := if !a.city.isEmpty || !a.country.isEmpty then some a.country else none }

/-- The emitted list is marshalled only when non-empty (the nil
json.RawMessage otherwise). -/
def optList {α : Type} (l : List α) : Option (List α) :=
  if l.isEmpty then none else some l

/-- The cleaned, non-empty claims of the structured document. -/
def structClaims (doc : XMLDoc) : List GStr :=
  (doc.claimInners.map cleanXMLTextPub).filter (fun c => !c.isEmpty)

/-- Publication date and year derived from a date leaf: both zeroed when
the leaf is empty or unparsable. -/
def pubDateYear (ds : GStr) : Option GoDate × Int :=
  if ds.isEmpty then (none, 0)
  else
    match parseDateM ds with
    | some t => (some t, (t.y : Int))
    | none => (none, 0)

/-- The structured branch of parseXML (xml.Unmarshal succeeded): the
structured doc-number wins over the path match, and the record is dropped
only when both are empty. -/
def parseStructured (doc : XMLDoc) (data : GStr) (xmlPath : GStr) : Option MPatent :=
  match (if !doc.pubDocNumber.isEmpty then some doc.pubDocNumber
         else findUSNum xmlPath : Option GStr) with
  | none => none
  | some pn =>
    some { pubNumber := pn
           title := capBytes 500 (goTrimSpace doc.title)
           abstractText := capBytes 5000 (cleanXMLTextPub doc.abstractInner)
           descriptionText :=
             capBytes 150000
               (combineDescription (structClaims doc) (synthesizeDescription data))
           claims := structClaims doc
           filingDate := if doc.appDate.isEmpty then none else parseDateM doc.appDate
           pubDate := (pubDateYear doc.pubDate).1
           year := (pubDateYear doc.pubDate).2
           applicationNumber := extractAppNumber data
           inventors := optList (doc.inventors.filterMap mkStructInventor)
           assignees := optList (doc.assignees.filterMap mkStructAssignee)
           rawXMLPath := xmlPath }

/-- Join non-empty optional name parts with a space. -/
def joinNameParts (n1 n2 : Option GStr) : GStr :=
  goTrimSpace (List.intercalate (gstr " ") ((n1.toList) ++ (n2.toList)))

/-- One inventor block of the alternate parser: given and family names
first, else the legacy numbered name parts; the address leaves are trimmed
raw captures. -/
def altInventorOfBlock (seg : GStr) : Option MParty :=
  let g := findSimpleTag true (gstr "given-name") seg
  let f := findSimpleTag true (gstr "family-name") seg
  let full :=
    match g, f with
    | some gv, some fv => goTrimSpace (gv ++ [' '] ++ fv)
    | _, _ =>
      let n1 := findSimpleTag true (gstr "name-1") seg
      let n2 := findSimpleTag true (gstr "name-2") seg
      if n1.isSome || n2.isSome then joinNameParts n1 n2 else []
  if full.isEmpty then none
  else
    some { name := cleanXMLTextPub full
           ptype := gstr "individual"
           city := (findSimpleTag true (gstr "city") seg).map goTrimSpace
           country := (findSimpleTag true (gstr "country") seg).map goTrimSpace }

/-- One assignee block of the alternate parser: the organization name
first, else the legacy numbered name parts. -/
def altAssigneeOfBlock (seg : GStr) : Option MParty :=
  let np :=
    match findSimpleTag true (gstr "orgname") seg with
    | some m => (goTrimSpace m, gstr "organization")
    | none =>
      let n1 := findSimpleTag true (gstr "name-1") seg
      let n2 := findSimpleTag true (gstr "name-2") seg
      if n1.isSome || n2.isSome then (joinNameParts n1 n2, gstr "individual")
      else (([] : GStr), ([] : GStr))
  if np.1.isEmpty then none
  else
    some { name := cleanXMLTextPub np.1
           ptype := np.2
           city := (findSimpleTag true (gstr "city") seg).map goTrimSpace
           country := (findSimpleTag true (gstr "country") seg).map goTrimSpace }

/-- Title of the alternate parser: invention-title, else the legacy
title-of-invention, cleaned. -/
def altTitle (data : GStr) : GStr :=
  match findSimpleTag false (gstr "invention-title") data with
  | some m => cleanXMLTextPub m
  | none =>
    match findSimpleTag false (gstr "title-of-invention") data with
    | some m => cleanXMLTextPub m
    | none => []

/-- Raw abstract block of the alternate parser: abstract, else the legacy
subdoc-abstract. -/
def altAbstractRaw (data : GStr) : GStr :=
  match blockContentCI (gstr "abstract") data with
  | some m => m
  | none =>
    match blockContentCI (gstr "subdoc-abstract") data with
    | some m => m
    | none => []

/-- Abstract of the alternate parser: cleaned and capped only when the raw
block is non-empty. -/
def altAbstract (data : GStr) : GStr :=
  if (altAbstractRaw data).isEmpty then []
  else capBytes 5000 (cleanXMLTextPub (altAbstractRaw data))

/-- Claims of the alternate parser: every claim-text block, cleaned,
non-empty, capped at fifty by the loop break. -/
def altClaims (data : GStr) : List GStr :=
  (((findAllTagBlocks false (gstr "claim-text") data).map
    (fun pr => cleanXMLTextPub pr.2)).filter (fun c => !c.isEmpty)).take 50

/-- Publication date and year of the alternate parser: a twenty-hundreds
year inside the publication number first, else the document-date leaf. -/
def altPubYear (pn data : GStr) : Option GoDate × Int :=
  match
    (match findYear20 pn with
     | some y => if 2000 ≤ y && y ≤ 2100 then some y else none
     | none => none) with
  | some y => (none, (y : Int))
  | none =>
    match findDocumentDate data with
    | some ds =>
      match parseDateM ds with
      | some t => (some t, (t.y : Int))
      | none => (none, 0)
    | none => (none, 0)

/-- Inventors of the alternate parser, capped at fifty by the loop
break. -/
def altInventors (data : GStr) : List MParty :=
  ((findAllTagBlocks false (gstr "inventor") data).filterMap
    (fun pr => altInventorOfBlock pr.2)).take 50

/-- Assignees of the alternate parser, capped at fifty by the loop
break. -/
def altAssignees (data : GStr) : List MParty :=
  ((findAllTagBlocks false (gstr "assignee") data).filterMap
    (fun pr => altAssigneeOfBlock pr.2)).take 50

/-- parseAlternateXML: the regex-driven fallback for older documents.  The
first plain doc-number wins over the path match; the record is dropped
only when both fail. -/
def parseAlternateXMLM (data : GStr) (xmlPath : GStr) : Option MPatent :=
  match (match findPlainDocNum data with
         | some m => some (goTrimSpace m)
         | none => findUSNum xmlPath : Option GStr) with
  | none => none
  | some pn =>
    some { pubNumber := pn
           title := capBytes 500 (altTitle data)
           abstractText := altAbstract data
           descriptionText :=
             capBytes 150000
               (combineDescription (altClaims data) (synthesizeDescription data))
           claims := altClaims data
           filingDate := none
           pubDate := (altPubYear pn data).1
           year := (altPubYear pn data).2
           applicationNumber := extractAppNumber data
           inventors := optList (altInventors data)
           assignees := optList (altAssignees data)
           rawXMLPath := xmlPath }

/-- parseXML: the structured decoder result selects the branch — a decode
failure falls back to the alternate parser. -/
def parseXMLM (dec : Option XMLDoc) (data : GStr) (xmlPath : GStr) : Option MPatent :=
  match dec with
  | some doc => parseStructured doc data xmlPath
  | none => parseAlternateXMLM data xmlPath

/-- filepath.Base for slash-separated paths. -/
def goBase (p : GStr) : GStr :=
  if p.isEmpty then ['.']
  else
    let q := dropTrailing (· = '/') p
    if q.isEmpty then ['/']
    else (q.reverse.takeWhile (· ≠ '/')).reverse

/-- Case-sensitive substring test (strings.Contains). -/
def containsSub (needle : GStr) : GStr → Bool
  | [] => needle.isEmpty
  | c :: t => needle.isPrefixOf (c :: t) || containsSub needle t

/-- HasSuffix on the upper-cased name. -/
def upperEndsWith (suffix name : GStr) : Bool :=
  suffix.isSuffixOf (name.map upperC)

/-- One XML member of an archive: its name, the bytes read from it (none
models a read error, which the extractor logs and skips) and the outcome
of the structured decoder on those bytes. -/
structure XmlFileM where
  name : GStr
  data : Option GStr
  decoded : Option XMLDoc
deriving DecidableEq, Repr

/-- One entry of an outer container, with the oracles for the two ways the
extractor may interpret its bytes: as an XML document or as a nested ZIP
(none models an open or read failure, which is skipped). -/
structure ZipEntryM where
  name : GStr
  data : Option GStr
  decoded : Option XMLDoc
  asZip : Option (List XmlFileM)
deriving DecidableEq, Repr

/-- Parse one XML member into zero-or-one records, with the synthetic path
built from the archive basename. -/
def parseEntryXml (base name : GStr) (odata : Option GStr) (dec : Option XMLDoc) :
    List MPatent :=
  match odata with
  | none => []
  | some d =>
    match parseXMLM dec d (base ++ '/' :: name) with
    | some p => [p]
    | none => []

/-- extractFromZIP: a first pass decides between the nested-ZIP layout
(any member named like a ZIP; DTDS and ENTITIES payloads skipped) and the
direct-XML layout; every parsed record carries the basename-prefixed
synthetic path. -/
def extractFromZIPM (archivePath : GStr) (entries : List ZipEntryM) : List MPatent :=
  let base := goBase archivePath
  let hasNested := entries.any (fun e => upperEndsWith (gstr ".ZIP") e.name)
  if hasNested then
    (entries.map (fun e =>
      if upperEndsWith (gstr ".ZIP") e.name &&
          !containsSub (gstr "DTDS") e.name && !containsSub (gstr "ENTITIES") e.name then
        match e.asZip with
        | none => []
        | some files =>
          (files.map (fun nf =>
            if upperEndsWith (gstr ".XML") nf.name then
              parseEntryXml base nf.name nf.data nf.decoded
            else [])).flatten
      else [])).flatten
  else
    (entries.map (fun e =>
      if upperEndsWith (gstr ".XML") e.name then parseEntryXml base e.name e.data e.decoded
      else [])).flatten

/-- extractFromTAR over the sequential entry stream: XML members parse
directly, ZIP members are materialized and their XML members parse, other
members are skipped (a mid-stream header error, which aborts the archive,
yields no records at all and is outside this per-entry model). -/
def extractFromTARM (archivePath : GStr) (entries : List ZipEntryM) : List MPatent :=
  let base := goBase archivePath
  (entries.map (fun e =>
    if upperEndsWith (gstr ".XML") e.name then parseEntryXml base e.name e.data e.decoded
    else if upperEndsWith (gstr ".ZIP") e.name then
      match e.asZip with
      | none => []
      | some files =>
        (files.map (fun zf =>
          if upperEndsWith (gstr ".XML") zf.name then
            parseEntryXml base zf.name zf.data zf.decoded
          else [])).flatten
    else [])).flatten

/-- The worker-visible counters of the Stats block. -/
structure WorkerStats where
  archivesProcessed : Nat
  patentsExtracted : Nat
  errors : Nat
deriving DecidableEq, Repr

/-- The worker-visible state: counters, the ProcessedSet (in-memory map
plus the appended log line) and the batches pushed to the result
channel. -/
structure WorkerView where
  stats : WorkerStats
  processed : List GStr
  emitted : List (List MPatent)
deriving DecidableEq, Repr

/-- One iteration of the worker loop on an archive, with the extraction
outcome passed in: an error is logged and counted, a success counts the
records and emits a non-empty batch — and in both cases the archive is
marked processed (markProcessed runs after the branch, unconditionally;
the file move is filesystem-only) and the archive counter advances. -/
def workerStep (st : WorkerView) (archivePath : GStr)
    (result : Except GStr (List MPatent)) : WorkerView :=
  let st1 :=
    match result with
    | .error _ =>
      { st with stats := { st.stats with errors := st.stats.errors + 1 } }
    | .ok patents =>
      let st2 :=
        { st with stats :=
            { st.stats with patentsExtracted := st.stats.patentsExtracted + patents.length } }
      if patents.isEmpty then st2 else { st2 with emitted := st2.emitted ++ [patents] }
  { st1 with
    processed := st1.processed ++ [archivePath]
    stats := { st1.stats with archivesProcessed := st1.stats.archivesProcessed + 1 } }

/-- One document reference of a grant (country, doc-number, kind, date). -/
structure GrantDocRefM where
  country : GStr
  docNumber : GStr
  kind : GStr
  date : GStr
deriving DecidableEq, Repr

/-- One us-patent-grant element as decoded by the standard-library XML
decoder (only the leaves the converter reads). -/
structure GrantDocM where
  pubRef : GrantDocRefM
  appRef : GrantDocRefM
  title : GStr
  abstractParas : List GStr
deriving DecidableEq, Repr

/-- The metadata-only grant row. -/
structure PatentGrantM where
  grantNumber : GStr
  kind : GStr
  title : GStr
  grantDate : Option GoDate
  applicationNumber : GStr
  applicationDate : Option GoDate
  abstractText : GStr
  year : Int
  rawXMLSource : GStr
deriving DecidableEq, Repr

/-- parseUSPTODate: the eight-digit and dashed layouts only. -/
def parseUSPTODateM (s : GStr) : Option GoDate :=
  if s.length = 8 then
    if s.all isDigitB then
      let m := natOfDigits ((s.drop 4).take 2)
      let d := natOfDigits (s.drop 6)
      if 1 ≤ m && m ≤ 12 && 1 ≤ d && d ≤ 31 then some ⟨natOfDigits (s.take 4), m, d⟩
      else none
    else none
  else if s.length = 10 then
    if (s.take 4).all isDigitB && s.get? 4 = some '-' &&
        ((s.drop 5).take 2).all isDigitB && s.get? 7 = some '-' &&
        (s.drop 8).all isDigitB then
      let m := natOfDigits ((s.drop 5).take 2)
      let d := natOfDigits (s.drop 8)
      if 1 ≤ m && m ≤ 12 && 1 ≤ d && d ≤ 31 then some ⟨natOfDigits (s.take 4), m, d⟩
      else none
    else none
  else none

/-- convertGrant: metadata only, every text leaf through the grant
sanitizer, the synthetic source path stored verbatim. -/
def convertGrantM (g : GrantDocM) (archivePath : GStr) : PatentGrantM :=
  let gd : Option GoDate × Int :=
    if g.pubRef.date.isEmpty then (none, 0)
    else
      match parseUSPTODateM g.pubRef.date with
      | some t => (some t, (t.y : Int))
      | none => (none, 0)
  { grantNumber := cleanXMLTextGrant g.pubRef.docNumber
    kind := cleanXMLTextGrant g.pubRef.kind
    title := cleanXMLTextGrant g.title
    grantDate := gd.1
    applicationNumber := cleanXMLTextGrant g.appRef.docNumber
    applicationDate :=
      if g.appRef.date.isEmpty then none else parseUSPTODateM g.appRef.date
    abstractText :=
      List.intercalate (gstr " ")
        ((g.abstractParas.map cleanXMLTextGrant).filter (fun c => !c.isEmpty))
    year := gd.2
    rawXMLSource := archivePath }

/-- parseGrants over the decoded element stream: a failed DecodeElement is
logged and skipped, every decoded element converts. -/
def parseGrantsM (docs : List (Option GrantDocM)) (source : GStr) : List PatentGrantM :=
  docs.filterMap (fun o => o.map (fun g => convertGrantM g source))

/-- processArchive of the grant extractor around parsing: the synthetic
path is the archive basename, a slash and the member name. -/
def processArchiveGrantsM (archivePath xmlName : GStr) (docs : List (Option GrantDocM)) :
    List PatentGrantM :=
  parseGrantsM docs (goBase archivePath ++ '/' :: xmlName)

/-- Lookup in the patent_grants table keyed on grant_number. -/
def storeFind : List (GStr × PatentGrantM) → GStr → Option PatentGrantM
  | [], _ => none
  | (k, v) :: rest, q => if k = q then some v else storeFind rest q

/-- One INSERT with ON CONFLICT (grant_number) DO NOTHING: a conflicting
key leaves the table untouched. -/
def insertGrantRow (store : List (GStr × PatentGrantM)) (g : PatentGrantM) :
    List (GStr × PatentGrantM) :=
  match storeFind store g.grantNumber with
  | some _ => store
  | none => store ++ [(g.grantNumber, g)]

/-- insertBatch: every Exec succeeds (DO NOTHING swallows the conflict),
so each attempt counts as inserted and none as failed; the store threads
through the per-row inserts. -/
def insertBatchM : List (GStr × PatentGrantM) → List PatentGrantM →
    List (GStr × PatentGrantM) × Nat × Nat
  | store, [] => (store, 0, 0)
  | store, g :: gs =>
    let r := insertBatchM (insertGrantRow store g) gs
    (r.1, r.2.1 + 1, r.2.2)

/-! ## Concrete inputs for the witnesses and counterexamples -/

/-- A structured document carrying a publication doc-number, while the
synthetic path also matches the US-number pattern (counterexample input
for the extraction order). -/
def docCx4 : XMLDoc :=
  { title := [], abstractInner := [], claimInners := [], descriptionInner := [],
    pubDocNumber := gstr "999", pubDate := [], appDate := [],
    inventors := [], assignees := [] }

/-- The raw bytes docCx4 decodes from. -/
def dataCx4 : GStr :=
  gstr "<patent><publication-reference><document-id><doc-number>999</doc-number></document-id></publication-reference></patent>"

/-- A structured document with only a doc-number (witness input). -/
def docW4 : XMLDoc :=
  { title := [], abstractInner := [], claimInners := [], descriptionInner := [],
    pubDocNumber := gstr "42", pubDate := [], appDate := [],
    inventors := [], assignees := [] }

/-- The raw bytes docW4 decodes from. -/
def dataW4 : GStr :=
  gstr "<patent><publication-reference><document-id><doc-number>42</doc-number></document-id></publication-reference></patent>"

/-- A structured document with fifty-one claims and no structured
doc-number (counterexample input for the claims cap; the pub-id comes
from the synthetic path). -/
def docCx5 : XMLDoc :=
  { title := [], abstractInner := [], claimInners := List.replicate 51 (gstr "x"),
    descriptionInner := [], pubDocNumber := [], pubDate := [], appDate := [],
    inventors := [], assignees := [] }

/-- The raw bytes docCx5 decodes from: fifty-one one-character claims. -/
def dataCx5 : GStr :=
  gstr "<patent><claims>" ++ (List.replicate 51 (gstr "<claim>x</claim>")).flatten ++
    gstr "</claims></patent>"

/-- A small old-format blob for the fallback parser (witness input). -/
def dataW5 : GStr := gstr "<doc-number>5</doc-number><claim-text>Alpha</claim-text>"

/-- The record the fallback parser emits for dataW5. -/
def patW5 : MPatent :=
  { pubNumber := gstr "5", title := [], abstractText := [],
    descriptionText := gstr "CLAIMS:\nAlpha\n\n", claims := [gstr "Alpha"],
    filingDate := none, pubDate := none, year := 0, applicationNumber := [],
    inventors := none, assignees := none, rawXMLPath := gstr "x.xml" }

/-- A structured document with one claim and no description block
(counterexample input for the empty-description boundary). -/
def docCx9 : XMLDoc :=
  { title := [], abstractInner := [], claimInners := [gstr "A widget."],
    descriptionInner := [], pubDocNumber := gstr "123", pubDate := [], appDate := [],
    inventors := [], assignees := [] }

/-- The raw bytes the structured document docCx9 decodes from: a
publication reference and one claim, no description element. -/
def dataCx9 : GStr :=
  gstr "<patent><publication-reference><document-id><doc-number>123</doc-number></document-id></publication-reference><claims><claim>A widget.</claim></claims></patent>"

/-- A record with one claim and a claims-only description (witness
input). -/
def patW9 : MPatent :=
  { pubNumber := gstr "9", title := [], abstractText := [],
    descriptionText := gstr "CLAIMS:\nA\n\n", claims := [gstr "A"],
    filingDate := none, pubDate := none, year := 0, applicationNumber := [],
    inventors := none, assignees := none, rawXMLPath := [] }

/-- A structured document for the archive-extraction witness. -/
def docC3 : XMLDoc :=
  { title := [], abstractInner := [], claimInners := [], descriptionInner := [],
    pubDocNumber := gstr "7", pubDate := [], appDate := [],
    inventors := [], assignees := [] }

/-- The raw bytes docC3 decodes from. -/
def dataC3 : GStr :=
  gstr "<patent><publication-reference><document-id><doc-number>7</doc-number></document-id></publication-reference></patent>"

/-- A one-member direct-XML archive (witness input). -/
def entC3 : ZipEntryM :=
  { name := gstr "f.XML", data := some dataC3, decoded := some docC3, asZip := none }

/-- The record extracted from entC3 under the archive d/arch.zip. -/
def patC3 : MPatent :=
  { pubNumber := gstr "7", title := [], abstractText := [], descriptionText := [],
    claims := [], filingDate := none, pubDate := none, year := 0,
    applicationNumber := [], inventors := none, assignees := none,
    rawXMLPath := gstr "arch.zip/f.XML" }

/-- A stored grant row (witness input). -/
def gW10a : PatentGrantM :=
  { grantNumber := gstr "111", kind := gstr "B2", title := gstr "Old",
    grantDate := none, applicationNumber := [], applicationDate := none,
    abstractText := [], year := 0, rawXMLSource := gstr "ipg250107.zip/ipg250107.xml" }

/-- A conflicting grant with the same number and different content
(witness input). -/
def gW10b : PatentGrantM :=
  { grantNumber := gstr "111", kind := gstr "B2", title := gstr "New",
    grantDate := none, applicationNumber := [], applicationDate := none,
    abstractText := [], year := 0, rawXMLSource := gstr "ipg250114.zip/ipg250114.xml" }

/-! ## Helper lemmas -/

theorem fillText_eq (st : Option GStr) (x : GStr) :
    fillText st x = if presentText st then st else some x := by
  cases st with
  | none => simp [fillText, presentText, isNullOrBlank]
  | some v =>
    by_cases h : (btrim v).isEmpty <;>
      simp [fillText, presentText, isNullOrBlank, h]

theorem fillNull_eq {α : Type} (st ex : Option α) :
    fillNull st ex = if st.isSome then st else ex := by
  cases st <;> simp [fillNull]

theorem fillText_self (x : GStr) : fillText (some x) x = some x := by
  by_cases h : isNullOrBlank (some x) <;> simp [fillText, h]

theorem fillText_idem (st : Option GStr) (x : GStr) :
    fillText (fillText st x) x = fillText st x := by
  by_cases h : isNullOrBlank st
  · simp [fillText, h, fillText_self]
  · simp [fillText, h]

theorem fillNull_self {α : Type} (o : Option α) : fillNull o o = o := by
  cases o <;> simp [fillNull]

theorem fillNull_idem {α : Type} (st ex : Option α) :
    fillNull (fillNull st ex) ex = fillNull st ex := by
  cases st with
  | none => cases ex <;> simp [fillNull]
  | some v => simp [fillNull]

theorem merge_rowOfInsert (n : InsertVals) :
    mergeRow false (rowOfInsert n) n = rowOfInsert n := by
  simp [mergeRow, rowOfInsert, fillText_self, fillNull_self]

theorem merge_idem (s : StoredRow) (n : InsertVals) :
    mergeRow false (mergeRow false s n) n = mergeRow false s n := by
  simp [mergeRow, fillText_idem, fillNull_idem]

theorem mem_of_mem_dropTrailing {p : Char → Bool} {l : GStr} {c : Char}
    (h : c ∈ dropTrailing p l) : c ∈ l := by
  unfold dropTrailing at h
  exact List.mem_reverse.mp (List.dropWhile_subset p (List.mem_reverse.mp h))

theorem mem_of_mem_goTrimSpace {l : GStr} {c : Char} (h : c ∈ goTrimSpace l) :
    c ∈ l :=
  List.dropWhile_subset goIsSpace (mem_of_mem_dropTrailing h)

theorem mem_collapseAux {c : Char} :
    ∀ {b : Bool} {s : GStr}, c ∈ collapseAux b s →
      c = ' ' ∨ (c ∈ s ∧ reSpace c = false) := by
  intro b s
  induction s generalizing b with
  | nil => intro h; simp [collapseAux] at h
  | cons d t ih =>
    intro h
    rw [collapseAux] at h
    split at h
    · split at h
      · rcases ih h with h1 | ⟨h2, h3⟩
        · exact Or.inl h1
        · exact Or.inr ⟨List.mem_cons_of_mem d h2, h3⟩
      · rcases List.mem_cons.mp h with h1 | h1
        · exact Or.inl h1
        · rcases ih h1 with h2 | ⟨h3, h4⟩
          · exact Or.inl h2
          · exact Or.inr ⟨List.mem_cons_of_mem d h3, h4⟩
    · next hd =>
      rcases List.mem_cons.mp h with h1 | h1
      · subst h1
        exact Or.inr ⟨List.mem_cons_self c t, by simpa using hd⟩
      · rcases ih h1 with h2 | ⟨h3, h4⟩
        · exact Or.inl h2
        · exact Or.inr ⟨List.mem_cons_of_mem d h3, h4⟩

theorem cleanGrantWith_ctrl {u : GStr → GStr} {s : GStr} {c : Char}
    (h : c ∈ cleanGrantWith u s) : 32 ≤ c.toNat := by
  unfold cleanGrantWith at h
  have h1 := mem_of_mem_goTrimSpace h
  rcases mem_collapseAux h1 with hc | ⟨hm, hns⟩
  · subst hc; decide
  · have hk := (List.mem_filter.mp hm).2
    simp only [Bool.or_eq_true, decide_eq_true_eq] at hk
    rcases hk with (hk | hk) | hk
    · exact hk
    · exfalso; simp [reSpace, hk] at hns
    · exfalso; simp [reSpace, hk] at hns

theorem all_takeWhile (p : Char → Bool) (l : GStr) :
    (l.takeWhile p).all p = true := by
  induction l with
  | nil => rfl
  | cons c t ih =>
    unfold List.takeWhile
    by_cases h : p c <;> simp [h, ih]

theorem all_goTrimSpace {p : Char → Bool} {l : GStr} (h : l.all p = true) :
    (goTrimSpace l).all p = true := by
  rw [List.all_eq_true] at h ⊢
  exact fun c hc => h c (mem_of_mem_goTrimSpace hc)

theorem findDocNumDigits_digits :
    ∀ {s run : GStr}, findDocNumDigits s = some run → run.all isDigitB = true := by
  intro s
  induction s with
  | nil => intro run h; simp [findDocNumDigits] at h
  | cons c t ih =>
    intro run h
    unfold findDocNumDigits at h
    by_cases h1 : ciStarts (gstr "<doc-number>") (c :: t)
    · simp only [h1, if_true] at h
      by_cases h2 :
          !(((c :: t).drop 12).takeWhile isDigitB).isEmpty &&
            ciStarts (gstr "</doc-number>")
              (((c :: t).drop 12).drop (((c :: t).drop 12).takeWhile isDigitB).length)
      · simp only [h2, if_true, Option.some.injEq] at h
        subst h
        exact all_takeWhile isDigitB _
      · simp only [h2, if_false] at h
        exact ih h
    · simp only [h1, if_false] at h
      exact ih h

theorem extractAppNumberOld_digits (data : GStr) :
    (extractAppNumberOld data).all isDigitB = true := by
  unfold extractAppNumberOld
  split
  · split
    · split
      · next h3 => exact all_goTrimSpace (findDocNumDigits_digits h3)
      · rfl
    · rfl
  · rfl

theorem extractAppNumber_digits (data : GStr) :
    (extractAppNumber data).all isDigitB = true := by
  unfold extractAppNumber
  split
  · split
    · next h2 => exact all_goTrimSpace (findDocNumDigits_digits h2)
    · exact extractAppNumberOld_digits data
  · exact extractAppNumberOld_digits data

theorem digitsOnly_digits (s : GStr) : (digitsOnly s).all isDigitB = true := by
  rw [List.all_eq_true]
  exact fun c hc => (List.mem_filter.mp hc).2

theorem bfExtractOld_digits (data : GStr) :
    (bfExtractOld data).all isDigitB = true := by
  unfold bfExtractOld
  split
  · split
    · split
      · next content _ => exact digitsOnly_digits content
      · rfl
    · rfl
  · rfl

theorem extractAppNumberBF_digits (data : GStr) :
    (extractAppNumberBF data).all isDigitB = true := by
  unfold extractAppNumberBF
  split
  · split
    · next content _ => exact digitsOnly_digits content
    · exact bfExtractOld_digits data
  · exact bfExtractOld_digits data

theorem storeFind_append_of_some {l : List (GStr × PatentGrantM)}
    {k : GStr} {v : PatentGrantM} (l' : List (GStr × PatentGrantM))
    (h : storeFind l k = some v) : storeFind (l ++ l') k = some v := by
  induction l with
  | nil => simp [storeFind] at h
  | cons a rest ih =>
    obtain ⟨k0, v0⟩ := a
    rw [List.cons_append]
    unfold storeFind at h ⊢
    by_cases hk : k0 = k
    · simpa [hk] using h
    · simp only [hk, if_false] at h ⊢
      exact ih h

theorem storeFind_insert_preserve (store : List (GStr × PatentGrantM))
    (g : PatentGrantM) (k : GStr) (h : (storeFind store k).isSome) :
    storeFind (insertGrantRow store g) k = storeFind store k := by
  unfold insertGrantRow
  cases hf : storeFind store g.grantNumber with
  | some _ => rfl
  | none =>
    cases hv : storeFind store k with
    | none => rw [hv] at h; simp at h
    | some v => exact storeFind_append_of_some _ hv

/-! ## Claim theorems -/

/-- C1: on conflict in default (non-force) mode, each text column (title,
abstract, description text, claims text, description body, application
number) keeps the stored value when it is non-null and non-blank and
otherwise takes the new record's value; the dates, year, inventors,
assignees and raw path keep the stored value whenever it is non-null; and
in force-overwrite mode the three description columns are replaced
unconditionally from the new record while every other column behaves
exactly as in fill-only mode. -/
theorem upsert_fill_merge_semantics (s : StoredRow) (n : InsertVals) :
    (mergeRow false s n).title = (if presentText s.title then s.title else some n.title) ∧
    (mergeRow false s n).abstractText =
      (if presentText s.abstractText then s.abstractText else some n.abstractText) ∧
    (mergeRow false s n).descriptionText =
      (if presentText s.descriptionText then s.descriptionText else some n.descriptionText) ∧
    (mergeRow false s n).claimsText =
      (if presentText s.claimsText then s.claimsText else some n.claimsText) ∧
    (mergeRow false s n).descriptionBody =
      (if presentText s.descriptionBody then s.descriptionBody else some n.descriptionBody) ∧
    (mergeRow false s n).applicationNumber =
      (if presentText s.applicationNumber then s.applicationNumber else some n.applicationNumber) ∧
    (mergeRow false s n).filingDate =
      (if s.filingDate.isSome then s.filingDate else n.filingDate) ∧
    (mergeRow false s n).pubDate = (if s.pubDate.isSome then s.pubDate else n.pubDate) ∧
    (mergeRow false s n).year = (if s.year.isSome then s.year else some n.year) ∧
    (mergeRow false s n).inventors =
      (if s.inventors.isSome then s.inventors else n.inventors) ∧
    (mergeRow false s n).assignees =
      (if s.assignees.isSome then s.assignees else n.assignees) ∧
    (mergeRow false s n).rawXmlPath =
      (if s.rawXmlPath.isSome then s.rawXmlPath else some n.rawXmlPath) ∧
    (mergeRow true s n).descriptionText = some n.descriptionText ∧
    (mergeRow true s n).claimsText = some n.claimsText ∧
    (mergeRow true s n).descriptionBody = some n.descriptionBody ∧
    (mergeRow true s n).title = (mergeRow false s n).title ∧
    (mergeRow true s n).abstractText = (mergeRow false s n).abstractText ∧
    (mergeRow true s n).applicationNumber = (mergeRow false s n).applicationNumber ∧
    (mergeRow true s n).filingDate = (mergeRow false s n).filingDate ∧
    (mergeRow true s n).pubDate = (mergeRow false s n).pubDate ∧
    (mergeRow true s n).year = (mergeRow false s n).year ∧
    (mergeRow true s n).inventors = (mergeRow false s n).inventors ∧
    (mergeRow true s n).assignees = (mergeRow false s n).assignees ∧
    (mergeRow true s n).rawXmlPath = (mergeRow false s n).rawXmlPath := by
  simp [mergeRow, fillText_eq, fillNull_eq]

/-- C7: in fill-only mode a second UPSERT of the same record is a no-op on
every row state reachable by upserting that record. -/
theorem fill_only_upsert_idempotent (n : InsertVals) (s : StoredRow)
    (h : reachableRow n s) : mergeRow false s n = s := by
  rcases h with h | ⟨s0, h⟩
  · subst h; exact merge_rowOfInsert n
  · subst h; exact merge_idem s0 n

/-- Witness for C7 at a concrete record, on the row its own insert
created. -/
theorem fill_only_upsert_idempotent_witness :
    reachableRow
      { title := gstr "T", abstractText := [], descriptionText := [],
        claimsText := [], descriptionBody := [], applicationNumber := [],
        rawXmlPath := gstr "a.zip/x.XML", filingDate := none, pubDate := none,
        inventors := none, assignees := none, year := 2003 }
      (rowOfInsert
        { title := gstr "T", abstractText := [], descriptionText := [],
          claimsText := [], descriptionBody := [], applicationNumber := [],
          rawXmlPath := gstr "a.zip/x.XML", filingDate := none, pubDate := none,
          inventors := none, assignees := none, year := 2003 }) ∧
    mergeRow false
      (rowOfInsert
        { title := gstr "T", abstractText := [], descriptionText := [],
          claimsText := [], descriptionBody := [], applicationNumber := [],
          rawXmlPath := gstr "a.zip/x.XML", filingDate := none, pubDate := none,
          inventors := none, assignees := none, year := 2003 })
      { title := gstr "T", abstractText := [], descriptionText := [],
        claimsText := [], descriptionBody := [], applicationNumber := [],
        rawXmlPath := gstr "a.zip/x.XML", filingDate := none, pubDate := none,
        inventors := none, assignees := none, year := 2003 } =
    rowOfInsert
      { title := gstr "T", abstractText := [], descriptionText := [],
        claimsText := [], descriptionBody := [], applicationNumber := [],
        rawXmlPath := gstr "a.zip/x.XML", filingDate := none, pubDate := none,
        inventors := none, assignees := none, year := 2003 } :=
  ⟨Or.inl rfl, fill_only_upsert_idempotent _ _ (Or.inl rfl)⟩

/-- C2 counterexample: on a top-level open failure the worker increments
the error counter but still adds the archive to the ProcessedSet, so the
archive is not retried — contrary to the claim that its path is not added
to the set. -/
theorem worker_marks_failed_archive_processed :
    (workerStep ⟨⟨0, 0, 0⟩, [], []⟩ (gstr "corrupt.zip")
        (Except.error (gstr "zip: not a valid zip file"))).stats.errors = 1 ∧
    gstr "corrupt.zip" ∈
      (workerStep ⟨⟨0, 0, 0⟩, [], []⟩ (gstr "corrupt.zip")
        (Except.error (gstr "zip: not a valid zip file"))).processed := by
  decide

/-- C2 (amended): on a top-level open or read failure the worker logs and
increments the error counter and emits nothing, but the archive path is
appended to the ProcessedSet unconditionally and the archive counter still
advances, so the archive is not retried on the next run. -/
theorem worker_error_counts_and_marks (st : WorkerView) (p e : GStr) :
    (workerStep st p (Except.error e)).stats.errors = st.stats.errors + 1 ∧
    p ∈ (workerStep st p (Except.error e)).processed ∧
    (workerStep st p (Except.error e)).emitted = st.emitted ∧
    (workerStep st p (Except.error e)).stats.archivesProcessed =
      st.stats.archivesProcessed + 1 := by
  refine ⟨rfl, ?_, rfl, rfl⟩
  simp [workerStep]

/-- C6 counterexample: the publication extractor's sanitizer leaves a NUL
byte in place, so not every text field passes through a NUL-removing
sanitizer. -/
theorem pub_sanitizer_keeps_nul :
    cleanXMLTextPub ['a', Char.ofNat 0, 'b'] = ['a', Char.ofNat 0, 'b'] ∧
    Char.ofNat 0 ∈ cleanXMLTextPub ['a', Char.ofNat 0, 'b'] ∧
    (Char.ofNat 0).toNat = 0 := by
  decide

/-- C6 (amended): the grant extractor's sanitizer (for any entity decoder)
leaves no control character below 32 in its output — in particular no NUL
byte; the publication extractor's sanitizer only strips tags, trims and
collapses whitespace and can retain NUL bytes. -/
theorem grant_sanitizer_no_control_chars (s : GStr) (c : Char)
    (h : c ∈ cleanXMLTextGrant s) : 32 ≤ c.toNat := by
  unfold cleanXMLTextGrant at h
  exact cleanGrantWith_ctrl h

/-- Witness for the grant-sanitizer theorem on a concrete input with an
entity and a NUL byte. -/
theorem grant_sanitizer_no_control_chars_witness :
    '&' ∈ cleanXMLTextGrant ['a', '&', 'a', 'm', 'p', ';', Char.ofNat 0, 'b'] ∧
    32 ≤ '&'.toNat :=
  ⟨by decide,
   grant_sanitizer_no_control_chars ['a', '&', 'a', 'm', 'p', ';', Char.ofNat 0, 'b'] '&'
     (by decide)⟩

/-- C8 counterexample: the main extractor accepts a doc-number lying
entirely outside the application-reference element, where the
specification's inside-the-element extraction yields the empty string. -/
theorem app_number_outside_element_extracted :
    extractAppNumber
        (gstr "<application-reference></application-reference><doc-number>77</doc-number>") =
      gstr "77" ∧
    extractAppNumberSpec
        (gstr "<application-reference></application-reference><doc-number>77</doc-number>") =
      [] ∧
    gstr "77" ≠ ([] : GStr) := by
  decide

/-- C8 (amended): the extraction order holds with the containment relaxed —
the main extractor takes the first digits-only doc-number anywhere after
the application-reference opening tag, then the domestic-filing-data arm,
else empty (the backfill variant does bound the search inside the
element); in all cases the result of either function is digits-only. -/
theorem app_number_digits_only (data : GStr) :
    (extractAppNumber data).all isDigitB = true ∧
    (extractAppNumberBF data).all isDigitB = true :=
  ⟨extractAppNumber_digits data, extractAppNumberBF_digits data⟩

/-- C10: a grant whose grant number already exists leaves the stored row
unchanged (ON CONFLICT DO NOTHING), and every attempt in the batch counts
as inserted with zero failures. -/
theorem grant_conflict_do_nothing (store : List (GStr × PatentGrantM))
    (gs : List PatentGrantM) (k : GStr) (h : (storeFind store k).isSome) :
    storeFind (insertBatchM store gs).1 k = storeFind store k ∧
    (insertBatchM store gs).2.1 = gs.length ∧
    (insertBatchM store gs).2.2 = 0 := by
  induction gs generalizing store with
  | nil => exact ⟨rfl, rfl, rfl⟩
  | cons g gs ih =>
    have hp := storeFind_insert_preserve store g k h
    have h2 : (storeFind (insertGrantRow store g) k).isSome := by
      rw [hp]; exact h
    obtain ⟨a, b, c⟩ := ih (insertGrantRow store g) h2
    exact ⟨by rw [insertBatchM]; rw [a, hp],
           by rw [insertBatchM]; simp [b],
           by rw [insertBatchM]; simp [c]⟩

/-- Witness for C10: inserting a grant that conflicts on its number leaves
the stored row unchanged and still counts as inserted. -/
theorem grant_conflict_do_nothing_witness :
    (storeFind [(gstr "111", gW10a)] (gstr "111")).isSome ∧
    storeFind (insertBatchM [(gstr "111", gW10a)] [gW10b]).1 (gstr "111") =
      storeFind [(gstr "111", gW10a)] (gstr "111") ∧
    (insertBatchM [(gstr "111", gW10a)] [gW10b]).2.1 = 1 ∧
    (insertBatchM [(gstr "111", gW10a)] [gW10b]).2.2 = 0 :=
  ⟨by decide,
   (grant_conflict_do_nothing [(gstr "111", gW10a)] [gW10b] (gstr "111") (by decide)).1,
   (grant_conflict_do_nothing [(gstr "111", gW10a)] [gW10b] (gstr "111") (by decide)).2.1,
   (grant_conflict_do_nothing [(gstr "111", gW10a)] [gW10b] (gstr "111") (by decide)).2.2⟩

theorem parseStructured_path {doc : XMLDoc} {data path : GStr} {p : MPatent}
    (h : parseStructured doc data path = some p) : p.rawXMLPath = path := by
  unfold parseStructured at h
  split at h
  · simp at h
  · next pn hpn =>
    have hp := Option.some.inj h
    subst hp
    rfl

theorem parseAlternateXMLM_path {data path : GStr} {p : MPatent}
    (h : parseAlternateXMLM data path = some p) : p.rawXMLPath = path := by
  unfold parseAlternateXMLM at h
  split at h
  · simp at h
  · next pn hpn =>
    have hp := Option.some.inj h
    subst hp
    rfl

theorem parseXMLM_path {dec : Option XMLDoc} {data path : GStr} {p : MPatent}
    (h : parseXMLM dec data path = some p) : p.rawXMLPath = path := by
  cases dec with
  | some doc => exact parseStructured_path h
  | none => exact parseAlternateXMLM_path h

theorem mem_parseEntryXml {base name : GStr} {odata : Option GStr}
    {dec : Option XMLDoc} {p : MPatent} (h : p ∈ parseEntryXml base name odata dec) :
    p.rawXMLPath = base ++ '/' :: name := by
  unfold parseEntryXml at h
  split at h
  · simp at h
  · split at h
    · next q hq =>
      rw [List.mem_singleton] at h
      subst h
      exact parseXMLM_path hq
    · simp at h

theorem extractZIP_prefix {ap : GStr} {entries : List ZipEntryM} {p : MPatent}
    (h : p ∈ extractFromZIPM ap entries) :
    ∃ t, p.rawXMLPath = goBase ap ++ '/' :: t := by
  simp only [extractFromZIPM] at h
  split at h
  · rw [List.mem_flatten] at h
    obtain ⟨l, hl, hp⟩ := h
    rw [List.mem_map] at hl
    obtain ⟨e, _, rfl⟩ := hl
    split at hp
    · split at hp
      · simp at hp
      · next files _ =>
        rw [List.mem_flatten] at hp
        obtain ⟨l2, hl2, hp2⟩ := hp
        rw [List.mem_map] at hl2
        obtain ⟨nf, _, rfl⟩ := hl2
        split at hp2
        · exact ⟨nf.name, mem_parseEntryXml hp2⟩
        · simp at hp2
    · simp at hp
  · rw [List.mem_flatten] at h
    obtain ⟨l, hl, hp⟩ := h
    rw [List.mem_map] at hl
    obtain ⟨e, _, rfl⟩ := hl
    split at hp
    · exact ⟨e.name, mem_parseEntryXml hp⟩
    · simp at hp

theorem extractTAR_prefix {ap : GStr} {entries : List ZipEntryM} {p : MPatent}
    (h : p ∈ extractFromTARM ap entries) :
    ∃ t, p.rawXMLPath = goBase ap ++ '/' :: t := by
  simp only [extractFromTARM] at h
  rw [List.mem_flatten] at h
  obtain ⟨l, hl, hp⟩ := h
  rw [List.mem_map] at hl
  obtain ⟨e, _, rfl⟩ := hl
  split at hp
  · exact ⟨e.name, mem_parseEntryXml hp⟩
  · split at hp
    · split at hp
      · simp at hp
      · next files _ =>
        rw [List.mem_flatten] at hp
        obtain ⟨l2, hl2, hp2⟩ := hp
        rw [List.mem_map] at hl2
        obtain ⟨zf, _, rfl⟩ := hl2
        split at hp2
        · exact ⟨zf.name, mem_parseEntryXml hp2⟩
        · simp at hp2
    · simp at hp

theorem grants_prefix {ap xmlName : GStr} {docs : List (Option GrantDocM)}
    {g : PatentGrantM} (h : g ∈ processArchiveGrantsM ap xmlName docs) :
    ∃ t, g.rawXMLSource = goBase ap ++ '/' :: t := by
  unfold processArchiveGrantsM parseGrantsM at h
  rw [List.mem_filterMap] at h
  obtain ⟨o, _, hg⟩ := h
  cases o with
  | none => simp at hg
  | some gd =>
    simp only [Option.map_some'] at hg
    have hg2 := Option.some.inj hg
    subst hg2
    exact ⟨xmlName, rfl⟩

/-- C3: every record emitted by the publication extraction paths (direct
and nested ZIP, TAR and nested ZIP-in-TAR) and by the grant pipeline
stores a synthetic path that begins with the basename of the archive it
was read from followed by a slash. -/
theorem raw_xml_path_archive_prefix :
    (∀ (ap : GStr) (entries : List ZipEntryM) (p : MPatent),
      p ∈ extractFromZIPM ap entries → ∃ t, p.rawXMLPath = goBase ap ++ '/' :: t) ∧
    (∀ (ap : GStr) (entries : List ZipEntryM) (p : MPatent),
      p ∈ extractFromTARM ap entries → ∃ t, p.rawXMLPath = goBase ap ++ '/' :: t) ∧
    (∀ (ap xmlName : GStr) (docs : List (Option GrantDocM)) (g : PatentGrantM),
      g ∈ processArchiveGrantsM ap xmlName docs →
        ∃ t, g.rawXMLSource = goBase ap ++ '/' :: t) :=
  ⟨fun _ _ _ h => extractZIP_prefix h,
   fun _ _ _ h => extractTAR_prefix h,
   fun _ _ _ _ h => grants_prefix h⟩

/-- Witness for C3 on a one-member archive under a subdirectory. -/
theorem raw_xml_path_archive_prefix_witness :
    patC3 ∈ extractFromZIPM (gstr "d/arch.zip") [entC3] ∧
    (∃ t, patC3.rawXMLPath = goBase (gstr "d/arch.zip") ++ '/' :: t) :=
  ⟨by decide,
   raw_xml_path_archive_prefix.1 (gstr "d/arch.zip") [entC3] patC3 (by decide)⟩

/-- C4 counterexample: on a blob whose structured doc-number is 999 and
whose synthetic path matches US123, the emitted pub-id is 999 — the
structured value wins over the path match, against the claimed order. -/
theorem pub_id_structured_overrides_path :
    (parseXMLM (some docCx4) dataCx4 (gstr "US123.XML")).map MPatent.pubNumber =
      some (gstr "999") ∧
    findUSNum (gstr "US123.XML") = some (gstr "123") ∧
    gstr "999" ≠ gstr "123" := by
  decide

/-- C4 (amended): in the structured branch the structured doc-number wins,
the path match is the fallback, and the record is dropped when both fail;
in the regex fallback the first plain doc-number wins, the path match is
the fallback, and the record is dropped when both fail. -/
theorem pub_id_extraction_precedence (doc : XMLDoc) (data path : GStr) :
    (doc.pubDocNumber ≠ [] →
      ∃ p, parseXMLM (some doc) data path = some p ∧
        p.pubNumber = doc.pubDocNumber) ∧
    (doc.pubDocNumber = [] → ∀ n, findUSNum path = some n →
      ∃ p, parseXMLM (some doc) data path = some p ∧ p.pubNumber = n) ∧
    (doc.pubDocNumber = [] → findUSNum path = none →
      parseXMLM (some doc) data path = none) ∧
    (∀ m, findPlainDocNum data = some m →
      ∃ p, parseXMLM none data path = some p ∧ p.pubNumber = goTrimSpace m) ∧
    (findPlainDocNum data = none → ∀ n, findUSNum path = some n →
      ∃ p, parseXMLM none data path = some p ∧ p.pubNumber = n) ∧
    (findPlainDocNum data = none → findUSNum path = none →
      parseXMLM none data path = none) := by
  refine ⟨?_, ?_, ?_, ?_, ?_, ?_⟩
  · intro hne
    have hb : doc.pubDocNumber.isEmpty = false := by
      cases hpd : doc.pubDocNumber <;> simp_all
    simp only [parseXMLM, parseStructured, hb, Bool.not_false, if_true]
    exact ⟨_, rfl, rfl⟩
  · intro he n hn
    have hb : doc.pubDocNumber.isEmpty = true := by simp [he]
    simp only [parseXMLM, parseStructured, hb, Bool.not_true, if_false, hn]
    exact ⟨_, rfl, rfl⟩
  · intro he hn
    have hb : doc.pubDocNumber.isEmpty = true := by simp [he]
    simp only [parseXMLM, parseStructured, hb, Bool.not_true, if_false, hn]
    rfl
  · intro m hm
    simp only [parseXMLM, parseAlternateXMLM, hm]
    exact ⟨_, rfl, rfl⟩
  · intro hm n hn
    simp only [parseXMLM, parseAlternateXMLM, hm, hn]
    exact ⟨_, rfl, rfl⟩
  · intro hm hn
    simp only [parseXMLM, parseAlternateXMLM, hm, hn]

/-- Witness for C4 at a concrete structured document. -/
theorem pub_id_extraction_precedence_witness :
    docW4.pubDocNumber ≠ [] ∧
    (∃ p, parseXMLM (some docW4) dataW4 (gstr "p.XML") = some p ∧
      p.pubNumber = docW4.pubDocNumber) :=
  ⟨by decide,
   (pub_id_extraction_precedence docW4 dataW4 (gstr "p.XML")).1 (by decide)⟩

theorem capBytes_length_le (n : Nat) (s : GStr) : (capBytes n s).length ≤ n := by
  unfold capBytes
  split
  · exact List.length_take_le n s
  · next hg => omega

theorem capBytes_eq_take (n : Nat) (s : GStr) : capBytes n s = s.take n := by
  unfold capBytes
  split
  · rfl
  · next hg => exact (List.take_of_length_le (by omega)).symm

theorem combineDescription_append (claims : List GStr) (d : GStr)
    (hc : claims ≠ []) :
    ∃ t, combineDescription claims d = claimsBlock claims ++ t := by
  have hce : claims.isEmpty = false := by cases claims <;> simp_all
  unfold combineDescription
  simp only [hce, Bool.false_eq_true, if_false]
  by_cases hd : d.isEmpty
  · simp only [hd, if_true]
    exact ⟨[], by simp⟩
  · have hdd : d.isEmpty = false := by simpa using hd
    have hcb : (claimsBlock claims).isEmpty = false := rfl
    simp only [hdd, Bool.false_eq_true, if_false, hcb]
    exact ⟨gstr "DESCRIPTION:\n" ++ d, (List.append_assoc _ _ _)⟩

theorem optList_getD_le {α : Type} (l : List α) (n : Nat) (h : l.length ≤ n) :
    ((optList l).getD []).length ≤ n := by
  unfold optList
  split
  · simp
  · simpa using h

/-- C5 counterexample: the structured decoder path keeps all fifty-one
claims — the fifty-item cap does not hold for the structured branch. -/
theorem structured_claims_uncapped :
    (parseXMLM (some docCx5) dataCx5 (gstr "US1.XML")).map (fun p => p.claims.length) =
      some 51 ∧
    ¬(51 ≤ 50) := by
  decide

/-- C5 (amended): every emitted record obeys the byte caps (title 500,
abstract 5000, combined description 150000) and builds its combined
description from at most the first ten claims; the fifty-item caps on
claims, inventors and assignees hold on the regex-fallback path, but the
structured decoder path keeps all items. -/
theorem emitted_record_bounds (dec : Option XMLDoc) (data path : GStr)
    (p : MPatent) (h : parseXMLM dec data path = some p) :
    p.title.length ≤ 500 ∧ p.abstractText.length ≤ 5000 ∧
    p.descriptionText.length ≤ 150000 ∧
    (dec = none → p.claims.length ≤ 50 ∧ (p.inventors.getD []).length ≤ 50 ∧
      (p.assignees.getD []).length ≤ 50) ∧
    (p.claims ≠ [] →
      ∃ t, p.descriptionText = (claimsBlock p.claims ++ t).take 150000) := by
  cases dec with
  | some doc =>
    replace h : parseStructured doc data path = some p := h
    unfold parseStructured at h
    split at h
    · simp at h
    · next pn hpn =>
      have hp := Option.some.inj h
      subst hp
      refine ⟨capBytes_length_le _ _, capBytes_length_le _ _,
        capBytes_length_le _ _, ?_, ?_⟩
      · intro hx; simp at hx
      · intro hc
        obtain ⟨t0, ht⟩ :=
          combineDescription_append (structClaims doc) (synthesizeDescription data) hc
        refine ⟨t0, ?_⟩
        show capBytes 150000
            (combineDescription (structClaims doc) (synthesizeDescription data)) =
          (claimsBlock (structClaims doc) ++ t0).take 150000
        rw [capBytes_eq_take, ht]
  | none =>
    replace h : parseAlternateXMLM data path = some p := h
    unfold parseAlternateXMLM at h
    split at h
    · simp at h
    · next pn hpn =>
      have hp := Option.some.inj h
      subst hp
      refine ⟨capBytes_length_le _ _, ?_, capBytes_length_le _ _, ?_, ?_⟩
      · show (altAbstract data).length ≤ 5000
        unfold altAbstract
        split
        · simp
        · exact capBytes_length_le _ _
      · intro _
        refine ⟨?_, ?_, ?_⟩
        · show (altClaims data).length ≤ 50
          unfold altClaims
          exact List.length_take_le _ _
        · exact optList_getD_le _ _ (List.length_take_le _ _)
        · exact optList_getD_le _ _ (List.length_take_le _ _)
      · intro hc
        obtain ⟨t0, ht⟩ :=
          combineDescription_append (altClaims data) (synthesizeDescription data) hc
        refine ⟨t0, ?_⟩
        show capBytes 150000
            (combineDescription (altClaims data) (synthesizeDescription data)) =
          (claimsBlock (altClaims data) ++ t0).take 150000
        rw [capBytes_eq_take, ht]

/-- Witness for C5 on the regex-fallback path. -/
theorem emitted_record_bounds_witness :
    parseXMLM none dataW5 (gstr "x.xml") = some patW5 ∧
    patW5.title.length ≤ 500 ∧ patW5.abstractText.length ≤ 5000 ∧
    patW5.descriptionText.length ≤ 150000 :=
  ⟨by decide,
   (emitted_record_bounds none dataW5 (gstr "x.xml") patW5 (by decide)).1,
   (emitted_record_bounds none dataW5 (gstr "x.xml") patW5 (by decide)).2.1,
   (emitted_record_bounds none dataW5 (gstr "x.xml") patW5 (by decide)).2.2.1⟩

/-- C9 counterexample: a record with one claim and an empty description
block stores the whole claims-only text as description body, not the
empty string. -/
theorem claims_only_description_body_not_empty :
    (parseXMLM (some docCx9) dataCx9 (gstr "p.XML")).map deriveClaimsBody =
      some (gstr "A widget.", gstr "CLAIMS:\nA widget.\n\n") ∧
    gstr "CLAIMS:\nA widget.\n\n" ≠ ([] : GStr) := by
  decide

/-- C9 (amended): when a record has claims and its description text
carries no DESCRIPTION marker (the empty-description-block case), the
derived claims text is still populated from the claims and the derived
description body equals the whole description text, not the empty
string. -/
theorem no_marker_body_equals_description (p : MPatent) (hc : p.claims ≠ [])
    (hm : indexOfSub markerStr p.descriptionText = none) :
    (deriveClaimsBody p).2 = p.descriptionText ∧
    (deriveClaimsBody p).1 = joinClaimsText p.claims := by
  have hce : p.claims.isEmpty = false := by cases hcl : p.claims <;> simp_all
  unfold deriveClaimsBody
  simp only [hce, Bool.not_false, if_true, hm]
  exact ⟨trivial, trivial⟩

/-- Witness for C9 at a concrete claims-only record. -/
theorem no_marker_body_equals_description_witness :
    patW9.claims ≠ [] ∧ indexOfSub markerStr patW9.descriptionText = none ∧
    (deriveClaimsBody patW9).2 = patW9.descriptionText :=
  ⟨by decide, by decide,
   (no_marker_body_equals_description patW9 (by decide) (by decide)).1⟩

end USPTO
